import Mathlib

/-!
# MiBudget sync core — shallow embedding and verification

This file embeds the synchronization core of the MiBudget offline-first
finance tracker and proves properties of it:

* server-side push reconciler (`AtomicDatabase.bulkSync` in
  `src/lib/db/atomicDatabase.ts`) — `bulkSync` below;
* server-side incremental fetch (`AtomicDatabase.getSyncData`) —
  `getSyncData` below;
* client-side Dexie store with the outbox pattern
  (`MiBudgetDatabase` in `apps/web/src/services/database.ts`) —
  `ClientDB` and the `...WithOutbox` operations below;
* the client sync engine (`SyncEngine` in the web services) —
  `syncBody` / `sync` below, with the network round-trip's outcome
  supplied as an explicit environment value.

Timestamps (epoch milliseconds) are modelled as `Nat`.  Domain entities
share the base shape `{id, updated_at, deleted}`; the remaining
entity-specific fields (amounts, names, dates, ...) are irrelevant to the
sync algorithms, which only ever read `id` and `updated_at`, and are
collapsed into a single opaque `payload : Nat` so that "the record is
unchanged / overwritten" is still observable.
-/

/-- Base shape shared by all domain entities.  `payload` stands for every
entity-specific field that the sync algorithms never inspect. -/
structure Record where
  id : String
  updated_at : Nat
  deleted : Bool
  payload : Nat
deriving Repr, DecidableEq

/-- A conflict entry as pushed by `bulkSync`:
`{type, id, reason, clientTime, serverTime}`. -/
structure Conflict where
  type : String
  id : String
  reason : String
  clientTime : Nat
  serverTime : Nat
deriving Repr, DecidableEq

/-- `store.findIndex(r => r.id === i)` followed by reading the record:
the first record with the given id, if any. -/
def findRec (store : List Record) (i : String) : Option Record :=
  store.find? (fun r => r.id == i)

/-- Replace the first record whose id is `i` by `v` (the effect of
assigning `store[existingIndex] = v` after `findIndex`). -/
def replaceFirst (store : List Record) (i : String) (v : Record) : List Record :=
  match store with
  | [] => []
  | r :: rest => if r.id == i then v :: rest else r :: replaceFirst rest i v

/-- `{ ...rec, updated_at: serverTime }`. -/
def stamp (r : Record) (t : Nat) : Record :=
  { r with updated_at := t }

/-- One iteration of the conflict-detecting loops of
`AtomicDatabase.bulkSync` (categories and transactions): look up the first
record with the incoming id; if it exists and is strictly newer, keep the
store unchanged and report a `server_newer` conflict; if it exists and is
older or equally old, overwrite it with the incoming value stamped with
`serverTime`; if absent, append the stamped incoming value. -/
def mergeRecord (kind : String) (serverTime : Nat) (inc : Record) :
    List Record → List Record × Option Conflict
  | [] => ([stamp inc serverTime], none)
  | r :: rest =>
    if r.id == inc.id then
      if inc.updated_at < r.updated_at then
        (r :: rest, some ⟨kind, inc.id, "server_newer", inc.updated_at, r.updated_at⟩)
      else
        (stamp inc serverTime :: rest, none)
    else
      let res := mergeRecord kind serverTime inc rest
      (r :: res.1, res.2)

/-- One iteration of the budgets/goals loops of `AtomicDatabase.bulkSync`:
same last-write-wins update (`existing.updated_at <= incoming.updated_at`
accepts), but no conflict entry is ever produced. -/
def mergeRecordSilent (serverTime : Nat) (inc : Record) :
    List Record → List Record
  | [] => [stamp inc serverTime]
  | r :: rest =>
    if r.id == inc.id then
      if r.updated_at ≤ inc.updated_at then stamp inc serverTime :: rest
      else r :: rest
    else
      r :: mergeRecordSilent serverTime inc rest

/-- Fold `mergeRecord` over an incoming list, accumulating conflicts in
iteration order (the loop bodies of `bulkSync`). -/
def mergeKind (kind : String) (serverTime : Nat)
    (store : List Record) (incoming : List Record) : List Record × List Conflict :=
  incoming.foldl
    (fun acc inc =>
      let res := mergeRecord kind serverTime inc acc.1
      (res.1, acc.2 ++ res.2.toList))
    (store, [])

/-- Fold `mergeRecordSilent` over an incoming list (budgets/goals loops). -/
def mergeKindSilent (serverTime : Nat)
    (store : List Record) (incoming : List Record) : List Record :=
  incoming.foldl (fun acc inc => mergeRecordSilent serverTime inc acc) store

/-- The authoritative server store (`DatabaseSchema` of the lowdb file):
settings is a nullable singleton, the other kinds are arrays. -/
structure ServerDB where
  settings : Option Record
  categories : List Record
  transactions : List Record
  budgets : List Record
  goals : List Record
deriving Repr, DecidableEq

/-- A push payload: each entity-kind key is optional
(`absent = nothing to push for that kind`). -/
structure PushPayload where
  settings : Option (List Record)
  categories : Option (List Record)
  transactions : Option (List Record)
  budgets : Option (List Record)
  goals : Option (List Record)
deriving Repr, DecidableEq

def emptyPush : PushPayload := ⟨none, none, none, none, none⟩

/-- `AtomicDatabase.bulkSync(data)` with `serverTime` passed explicitly in
place of `Date.now()`.  Settings: only the first pushed settings record is
considered; a strictly newer existing record is kept and reported as a
conflict, otherwise the incoming record is stamped and stored.
Categories and transactions: `mergeRecord` per record with conflict
reporting.  Budgets and goals: `mergeRecordSilent` per record, no
conflict reporting (the `Similar for budgets and goals...` blocks omit the
`conflicts.push` call).  Returns the updated store and the conflicts list
in the order the code pushes them. -/
def bulkSync (srv : ServerDB) (push : PushPayload) (serverTime : Nat) :
    ServerDB × List Conflict :=
  let settingsStep : Option Record × List Conflict :=
    match push.settings with
    | some (s :: _) =>
      match srv.settings with
      | some existing =>
        if s.updated_at < existing.updated_at then
          (some existing,
            [⟨"settings", s.id, "server_newer", s.updated_at, existing.updated_at⟩])
        else
          (some (stamp s serverTime), [])
      | none => (some (stamp s serverTime), [])
    | _ => (srv.settings, [])
  let catStep := mergeKind "category" serverTime srv.categories (push.categories.getD [])
  let txnStep := mergeKind "transaction" serverTime srv.transactions (push.transactions.getD [])
  let budgets := mergeKindSilent serverTime srv.budgets (push.budgets.getD [])
  let goals := mergeKindSilent serverTime srv.goals (push.goals.getD [])
  (⟨settingsStep.1, catStep.1, txnStep.1, budgets, goals⟩,
    settingsStep.2 ++ catStep.2 ++ txnStep.2)

/-- A pull payload: the per-kind lists returned by `getSyncData`. -/
structure PullPayload where
  settings : List Record
  categories : List Record
  transactions : List Record
  budgets : List Record
  goals : List Record
deriving Repr, DecidableEq

def emptyPull : PullPayload := ⟨[], [], [], [], []⟩

/-- `AtomicDatabase.getSyncData(since)` (identical in `Database`): every
record with `updated_at > since`, per kind, with no filtering on the
`deleted` flag. -/
def getSyncData (srv : ServerDB) (since : Nat) : PullPayload :=
  { settings :=
      match srv.settings with
      | some s => if since < s.updated_at then [s] else []
      | none => []
    categories := srv.categories.filter (fun c => since < c.updated_at)
    transactions := srv.transactions.filter (fun t => since < t.updated_at)
    budgets := srv.budgets.filter (fun b => since < b.updated_at)
    goals := srv.goals.filter (fun g => since < g.updated_at) }

/-! ## Client-side store (`MiBudgetDatabase`, Dexie) -/

/-- The five entity kinds / tables. -/
inductive EntityKind
  | settings
  | categories
  | transactions
  | budgets
  | goals
deriving Repr, DecidableEq

/-- An outbox (change-queue) entry, as in `OutboxItem`. -/
structure OutboxItem where
  id : String
  entity : EntityKind
  operation : String
  payload : Record
  createdAt : Nat
  synced : Bool
  retryCount : Nat
deriving Repr, DecidableEq

/-- The client's Dexie database: one keyed table per entity kind, the
outbox table (kept in insertion order), and the singleton sync-state row
`{clientId, lastSync, lastFullSync}`. -/
structure ClientDB where
  settings : List Record
  categories : List Record
  transactions : List Record
  budgets : List Record
  goals : List Record
  outbox : List OutboxItem
  clientId : String
  lastSync : Nat
  lastFullSync : Nat
deriving Repr, DecidableEq

def ClientDB.table (db : ClientDB) : EntityKind → List Record
  | .settings => db.settings
  | .categories => db.categories
  | .transactions => db.transactions
  | .budgets => db.budgets
  | .goals => db.goals

def ClientDB.setTable (db : ClientDB) (k : EntityKind) (l : List Record) : ClientDB :=
  match k with
  | .settings => { db with settings := l }
  | .categories => { db with categories := l }
  | .transactions => { db with transactions := l }
  | .budgets => { db with budgets := l }
  | .goals => { db with goals := l }

/-- `MiBudgetDatabase.createWithOutbox`: add the item to its table and
append exactly one `create` outbox entry, as a single Dexie `rw`
transaction (modelled as one state transition).  `oid` stands for the
`generateId()` result and `tNow` for `now()`. -/
def createWithOutbox (db : ClientDB) (k : EntityKind) (oid : String)
    (tNow : Nat) (item : Record) : ClientDB :=
  let db1 := db.setTable k (db.table k ++ [item])
  { db1 with outbox := db1.outbox ++ [⟨oid, k, "create", item, tNow, false, 0⟩] }

/-- `MiBudgetDatabase.updateWithOutbox`: if no record with the id exists,
return `none` and leave the state untouched; otherwise overwrite the
record with `{...existing, ...updates, updated_at: now()}` and append
exactly one `update` outbox entry carrying the updated payload, in the
same transaction.  The object spread `{...existing, ...updates}` is
modelled by the function `upd` applied to the existing record. -/
def updateWithOutbox (db : ClientDB) (k : EntityKind) (oid : String)
    (tNow : Nat) (i : String) (upd : Record → Record) : ClientDB × Option Record :=
  match findRec (db.table k) i with
  | none => (db, none)
  | some existing =>
    let updated := { upd existing with updated_at := tNow }
    let db1 := db.setTable k (replaceFirst (db.table k) i updated)
    ({ db1 with outbox := db1.outbox ++ [⟨oid, k, "update", updated, tNow, false, 0⟩] },
      some updated)

/-- `MiBudgetDatabase.deleteWithOutbox`: soft delete — if the record
exists, set `deleted := true` and `updated_at := now()` and append exactly
one `delete` outbox entry, in the same transaction; otherwise return
`false` with the state untouched. -/
def deleteWithOutbox (db : ClientDB) (k : EntityKind) (oid : String)
    (tNow : Nat) (i : String) : ClientDB × Bool :=
  match findRec (db.table k) i with
  | none => (db, false)
  | some existing =>
    let updated := { existing with deleted := true, updated_at := tNow }
    let db1 := db.setTable k (replaceFirst (db.table k) i updated)
    ({ db1 with outbox := db1.outbox ++ [⟨oid, k, "delete", updated, tNow, false, 0⟩] },
      true)

/-- `MiBudgetDatabase.getUnsyncedItems`: the Dexie query
`this.outbox.where('synced').equals(0).toArray()`.  Every outbox write
stores `synced` as a JS boolean (`synced: false` on enqueue,
`modify({synced: true})` on acknowledgement), and booleans are not valid
IndexedDB keys, so Dexie's `synced` index contains no rows at all — and
the query key `0` is a number, which no boolean value would equal under
IndexedDB key comparison anyway.  The query therefore returns the empty
array for every store. -/
def getUnsyncedItems (_db : ClientDB) : List OutboxItem :=
  []

/-- The selection the spec's `listUnsynced(maxRetries)` describes — a
second definition following the spec's words, for comparison with the
source's `getUnsyncedItems`: the outbox entries with `synced = false`
and `retryCount < maxRetries`, in creation order. -/
def listUnsyncedSpec (db : ClientDB) (maxRetries : Nat) : List OutboxItem :=
  db.outbox.filter (fun it => it.synced == false && decide (it.retryCount < maxRetries))

/-- `MiBudgetDatabase.markAsSynced(ids)`: flag every outbox entry whose id
is in `ids` as synced (idempotent). -/
def markAsSynced (db : ClientDB) (ids : List String) : ClientDB :=
  { db with
    outbox := db.outbox.map
      (fun it => if ids.contains it.id then { it with synced := true } else it) }

/-- `MiBudgetDatabase.incrementRetryCount(outboxId)`: bump the retry count
of the entry with the given id. -/
def incrementRetryCount (db : ClientDB) (oid : String) : ClientDB :=
  { db with
    outbox := db.outbox.map
      (fun it => if it.id == oid then { it with retryCount := it.retryCount + 1 } else it) }

/-- One step of `MiBudgetDatabase.bulkUpsert`: insert the pulled item if
no local record with its id exists; overwrite only if the pulled record is
strictly newer; otherwise keep the local copy. -/
def upsertOne (store : List Record) (item : Record) : List Record :=
  match findRec store item.id with
  | some existing =>
    if existing.updated_at < item.updated_at then replaceFirst store item.id item
    else store
  | none => store ++ [item]

/-- `MiBudgetDatabase.bulkUpsert(table, items)`: `upsertOne` per pulled
item, in order, inside one transaction. -/
def bulkUpsert (store : List Record) (items : List Record) : List Record :=
  items.foldl upsertOne store

/-! ## Sync engine (`SyncEngine`) -/

/-- The value returned by `SyncEngine.sync` (`SyncResult` in the source;
a successful round leaves `error` unset). -/
structure SyncResult where
  success : Bool
  error : Option String
  itemsSynced : Nat
  itemsPulled : Nat
  lastSync : Nat
deriving Repr, DecidableEq

/-- `SyncEngine.applyServerChanges(response)`: apply the pulled lists via
`bulkUpsert`, kind by kind in source order (settings, categories,
transactions, budgets, goals).  `fuel` is the number of kinds applied
before an injected exception aborts the sequence; `fuel = 5` is the
non-throwing run (a guard `pull.kind?.length > 0` in the source merely
skips `bulkUpsert` on an empty list, which is a no-op here).  Each kind's
`bulkUpsert` reads only its own table, so the source's sequential
applications are rendered as independent per-table updates. -/
def applyServerChanges (db : ClientDB) (pull : PullPayload) (fuel : Nat) : ClientDB :=
  { db with
    settings := if 1 ≤ fuel then bulkUpsert db.settings pull.settings else db.settings
    categories := if 2 ≤ fuel then bulkUpsert db.categories pull.categories else db.categories
    transactions := if 3 ≤ fuel then bulkUpsert db.transactions pull.transactions else db.transactions
    budgets := if 4 ≤ fuel then bulkUpsert db.budgets pull.budgets else db.budgets
    goals := if 5 ≤ fuel then bulkUpsert db.goals pull.goals else db.goals }

/-- Number of records applied (`totalItems` in `applyServerChanges`). -/
def pullCount (pull : PullPayload) : Nat :=
  pull.settings.length + pull.categories.length + pull.transactions.length +
    pull.budgets.length + pull.goals.length

/-- `SyncEngine.groupItemsByEntity(items)`: group the outbox payloads by
entity kind, preserving iteration order; a kind with no items stays
absent from the payload. -/
def groupItemsByEntity (items : List OutboxItem) : PushPayload :=
  let kindList := fun (k : EntityKind) =>
    let l := (items.filter (fun it => it.entity == k)).map (fun it => it.payload)
    if l.isEmpty then none else some l
  { settings := kindList .settings
    categories := kindList .categories
    transactions := kindList .transactions
    budgets := kindList .budgets
    goals := kindList .goals }

/-- The entries selected for a push round
(`unsyncedItems.filter(item => item.retryCount < maxRetries)`).  Since
`getUnsyncedItems` always returns the empty array, this is empty for
every store: no entry is ever selected for a push. -/
def itemsToSync (db : ClientDB) (maxRetries : Nat) : List OutboxItem :=
  (getUnsyncedItems db).filter (fun it => it.retryCount < maxRetries)

/-- The catch branch's retry loop: re-read the unsynced entries and bump
the retry count of each one still below `maxRetries`
(`for (const item of unsyncedItems) if (item.retryCount < maxRetries)
incrementRetryCount(item.id)`). -/
def incrementFailed (db : ClientDB) (maxRetries : Nat) : ClientDB :=
  (itemsToSync db maxRetries).foldl (fun d it => incrementRetryCount d it.id) db

/-- The retry schedule computed in the catch branch when `maxRetries > 0`:
delay `min(30000, 1000 * 2^(maxRetries-1))` milliseconds, next round run
with `maxRetries - 1`. -/
def retrySchedule (maxRetries : Nat) : Option (Nat × Nat) :=
  if 0 < maxRetries then
    some (min 30000 (1000 * 2 ^ (maxRetries - 1)), maxRetries - 1)
  else none

/-- The outcome of the awaited network round-trip and the subsequent local
apply, supplied as an explicit environment value:
`apiError` — `apiClient.sync` threw an `ApiError` (every transport or
HTTP failure is wrapped as one by `ApiClient.request`);
`applyThrow t pull fuel msg` — the server answered with
`{server_time := t, pull}` but `applyServerChanges` threw (a non-ApiError)
after applying `fuel` kinds;
`ok t pull` — the round-trip and the apply both succeeded. -/
inductive SyncEnv
  | apiError (msg : String)
  | applyThrow (serverTimeResp : Nat) (pull : PullPayload) (fuel : Nat) (msg : String)
  | ok (serverTimeResp : Nat) (pull : PullPayload)
deriving Repr, DecidableEq

/-- The body of `SyncEngine.sync` after the re-entrancy and offline guards
(with `this.isSyncing` already set).  Returns the client store after the
round, the `SyncResult`, and the retry schedule installed by
`scheduleRetry`, if any.

* No pending items and not forced: `pullFromServer(lastSync)` — its own
  try/catch returns a failure result without touching retry counts and
  without scheduling a retry; on success it advances only `lastSync`.
* Otherwise the push path: on a response, the pushed entries are marked
  synced (only when there was at least one), then the pull is applied,
  then `lastSync` and `lastFullSync` are advanced; a throw while applying
  is not an `ApiError`, so the catch branch reports
  `Unknown sync error` without incrementing retries or scheduling.
  An `ApiError` increments the retry count of every still-unsynced entry
  below `maxRetries` and schedules a retry per `retrySchedule`. -/
def syncBody (db : ClientDB) (force : Bool) (maxRetries : Nat) (env : SyncEnv) :
    ClientDB × SyncResult × Option (Nat × Nat) :=
  let toSync := itemsToSync db maxRetries
  if toSync.isEmpty ∧ force = false then
    match env with
    | .ok t pull =>
      let db1 := applyServerChanges db pull 5
      let db2 := { db1 with lastSync := t }
      (db2, ⟨true, none, 0, pullCount pull, t⟩, none)
    | .applyThrow _ pull fuel msg =>
      (applyServerChanges db pull fuel, ⟨false, some msg, 0, 0, 0⟩, none)
    | .apiError msg =>
      (db, ⟨false, some msg, 0, 0, 0⟩, none)
  else
    match env with
    | .ok t pull =>
      let db1 := if toSync.isEmpty then db else markAsSynced db (toSync.map (fun it => it.id))
      let db2 := applyServerChanges db1 pull 5
      let db3 := { db2 with lastSync := t, lastFullSync := t }
      (db3, ⟨true, none, toSync.length, pullCount pull, t⟩, none)
    | .applyThrow _ pull fuel _ =>
      let db1 := if toSync.isEmpty then db else markAsSynced db (toSync.map (fun it => it.id))
      let db2 := applyServerChanges db1 pull fuel
      (db2, ⟨false, some "Unknown sync error", 0, 0, 0⟩, none)
    | .apiError msg =>
      (incrementFailed db maxRetries, ⟨false, some msg, 0, 0, 0⟩, retrySchedule maxRetries)

/-- The state of a call to `SyncEngine.sync`: the `isSyncing` flag after
the call, the client store, the returned result, and any retry schedule
installed. -/
structure SyncCall where
  isSyncing : Bool
  client : ClientDB
  result : SyncResult
  retrySched : Option (Nat × Nat)
deriving Repr, DecidableEq

/-- `SyncEngine.sync(options)`: the re-entrancy guard returns immediately
with `Sync already in progress` (leaving the flag owned by the running
round); the offline guard returns `Offline`; otherwise the body runs with
the flag set and the `finally` clears it. -/
def sync (isSyncing : Bool) (db : ClientDB) (online force : Bool)
    (maxRetries : Nat) (env : SyncEnv) : SyncCall :=
  if isSyncing then
    ⟨true, db, ⟨false, some "Sync already in progress", 0, 0, 0⟩, none⟩
  else if online = false then
    ⟨false, db, ⟨false, some "Offline", 0, 0, 0⟩, none⟩
  else
    let r := syncBody db force maxRetries env
    ⟨false, r.1, r.2.1, r.2.2⟩

/-! ## Composed client–server rounds

For cursor properties the client engine is composed with the authoritative
server.  The server's `Date.now()` is modelled by a clock that has
strictly increased whenever the next request is processed (`tick` is the
time elapsed; reading the clock during a round yields
`clock + tick + 1`). -/

/-- The composed replica pair: the authoritative server store with its
clock, and one client. -/
structure World where
  server : ServerDB
  clock : Nat
  client : ClientDB
deriving Repr, DecidableEq

/-- How one sync round ends: the transport fails (`ApiError`, the server
never processes the request), the server processes it but the client
throws while applying the pull, or everything succeeds. -/
inductive RoundFate
  | transportFail
  | applyFail (fuel : Nat) (msg : String)
  | success
deriving Repr, DecidableEq

/-- The externally-determined inputs of one sync round. -/
structure RoundInput where
  online : Bool
  force : Bool
  maxRetries : Nat
  tick : Nat
  fate : RoundFate
deriving Repr, DecidableEq

/-- The `Date.now()` the server reads while processing this round. -/
def roundServerTime (w : World) (r : RoundInput) : Nat :=
  w.clock + r.tick + 1

/-- One full sync round against the real server: the client builds the
same push payload `SyncEngine.sync` would (`groupItemsByEntity` over the
selected entries; an empty push for the pull-only path), the server runs
`bulkSync` then `getSyncData since` (the order of `POST /api/sync`) and
answers `server_time = pushTime`, and the client completes the round via
`sync`.  A transport failure leaves the server untouched. -/
def stepWorld (w : World) (r : RoundInput) : World × SyncResult :=
  if r.online = false then
    (w, ⟨false, some "Offline", 0, 0, 0⟩)
  else
    match r.fate with
    | .transportFail =>
      let c := sync false w.client true r.force r.maxRetries
        (.apiError "Network error or server unavailable")
      ({ w with client := c.client }, c.result)
    | .applyFail fuel msg =>
      let toSync := itemsToSync w.client r.maxRetries
      let push := if toSync.isEmpty ∧ r.force = false then emptyPush
        else groupItemsByEntity toSync
      let t := roundServerTime w r
      let srvRes := bulkSync w.server push t
      let pull := getSyncData srvRes.1 w.client.lastSync
      let c := sync false w.client true r.force r.maxRetries (.applyThrow t pull fuel msg)
      (⟨srvRes.1, t, c.client⟩, c.result)
    | .success =>
      let toSync := itemsToSync w.client r.maxRetries
      let push := if toSync.isEmpty ∧ r.force = false then emptyPush
        else groupItemsByEntity toSync
      let t := roundServerTime w r
      let srvRes := bulkSync w.server push t
      let pull := getSyncData srvRes.1 w.client.lastSync
      let c := sync false w.client true r.force r.maxRetries (.ok t pull)
      (⟨srvRes.1, t, c.client⟩, c.result)

/-- A sequence of sync rounds. -/
def runRounds (w : World) (rs : List RoundInput) : World :=
  rs.foldl (fun acc r => (stepWorld acc r).1) w

/-! ## Helper lemmas -/

theorem findRec_replaceFirst (store : List Record) (i : String) (v : Record)
    (hv : v.id = i) (h : (findRec store i).isSome) :
    findRec (replaceFirst store i v) i = some v := by
  induction store with
  | nil => simp [findRec] at h
  | cons r rest ih =>
    by_cases hr : r.id = i
    · simp [replaceFirst, findRec, hr, hv]
    · have hr2 : (r.id == i) = false := by simp [hr]
      simp only [findRec, List.find?_cons, hr2] at h
      simp only [replaceFirst, hr2, Bool.false_eq_true, if_false, findRec, List.find?_cons]
      exact ih h

/-! ## C3 — incremental fetch -/

/-- C3.  For every timestamp `T`, `getSyncData` returns exactly the
records with `updated_at > T`, for every entity kind (settings included),
with no condition on the `deleted` flag — so tombstones are returned and
a record with `updated_at = T` is not (strict `>`); the result is a pure
function of the store and `T`, so two calls with the same `T` and no
intervening writes agree. -/
theorem getSyncData_exact (srv : ServerDB) (T : Nat) (r : Record) :
    (r ∈ (getSyncData srv T).settings ↔ srv.settings = some r ∧ T < r.updated_at)
    ∧ (r ∈ (getSyncData srv T).categories ↔ r ∈ srv.categories ∧ T < r.updated_at)
    ∧ (r ∈ (getSyncData srv T).transactions ↔ r ∈ srv.transactions ∧ T < r.updated_at)
    ∧ (r ∈ (getSyncData srv T).budgets ↔ r ∈ srv.budgets ∧ T < r.updated_at)
    ∧ (r ∈ (getSyncData srv T).goals ↔ r ∈ srv.goals ∧ T < r.updated_at) := by
  refine ⟨?_, ?_, ?_, ?_, ?_⟩
  · cases hs : srv.settings with
    | none => simp [getSyncData, hs]
    | some s =>
      by_cases ht : T < s.updated_at
      · simp only [getSyncData, hs, if_pos ht, List.mem_singleton]
        constructor
        · rintro rfl; exact ⟨rfl, ht⟩
        · rintro ⟨h1, _⟩; exact (Option.some_injective _ h1).symm
      · simp only [getSyncData, hs, if_neg ht, List.not_mem_nil, false_iff]
        rintro ⟨h1, h2⟩
        exact ht ((Option.some_injective _ h1) ▸ h2)
  all_goals simp [getSyncData, List.mem_filter]

/-! ## C2 — client pull-side merge -/

/-- C2.  `bulkUpsert` processes each pulled record in order with
`upsertOne`; per record keyed by `id`: with no local record the pulled one
is inserted; with a local record it is overwritten exactly when
`pulled.updated_at > local.updated_at`, and kept unchanged otherwise.
Since the pulled record is stored verbatim, a tombstone
(`deleted = true`) with a strictly newer `updated_at` replaces the local
copy including its `deleted` flag. -/
theorem bulkUpsert_lww (store : List Record) (items : List Record) (item : Record) :
    bulkUpsert store items = items.foldl upsertOne store
    ∧ (findRec store item.id = none → upsertOne store item = store ++ [item])
    ∧ (∀ ex, findRec store item.id = some ex → ex.updated_at < item.updated_at →
        upsertOne store item = replaceFirst store item.id item
        ∧ findRec (upsertOne store item) item.id = some item)
    ∧ (∀ ex, findRec store item.id = some ex → ¬ ex.updated_at < item.updated_at →
        upsertOne store item = store) := by
  refine ⟨rfl, ?_, ?_, ?_⟩
  · intro h
    simp [upsertOne, h]
  · intro ex hex hlt
    have h1 : upsertOne store item = replaceFirst store item.id item := by
      simp [upsertOne, hex, hlt]
    refine ⟨h1, ?_⟩
    rw [h1]
    exact findRec_replaceFirst store item.id item rfl (by simp [hex])
  · intro ex hex hlt
    simp [upsertOne, hex, hlt]

/-- Witness for `bulkUpsert_lww` (tombstone instance): a pulled
soft-deleted record with a newer timestamp replaces the local copy. -/
theorem bulkUpsert_lww_witness :
    upsertOne [⟨"t1", 100, false, 0⟩] ⟨"t1", 200, true, 1⟩
        = replaceFirst [⟨"t1", 100, false, 0⟩] "t1" ⟨"t1", 200, true, 1⟩
    ∧ findRec (upsertOne [⟨"t1", 100, false, 0⟩] ⟨"t1", 200, true, 1⟩) "t1"
        = some ⟨"t1", 200, true, 1⟩ :=
  (bulkUpsert_lww [⟨"t1", 100, false, 0⟩] [] ⟨"t1", 200, true, 1⟩).2.2.1
    ⟨"t1", 100, false, 0⟩ rfl (by decide)

/-! ## C8 — push-side tie-break -/

theorem mergeRecord_tie (kind : String) (t : Nat) (inc : Record)
    (store : List Record) (ex : Record)
    (hex : findRec store inc.id = some ex) (htie : ex.updated_at = inc.updated_at) :
    mergeRecord kind t inc store = (replaceFirst store inc.id (stamp inc t), none) := by
  induction store with
  | nil => simp [findRec] at hex
  | cons r rest ih =>
    by_cases hr : r.id = inc.id
    · have hr2 : (r.id == inc.id) = true := by simp [hr]
      simp only [findRec, List.find?_cons, hr2] at hex
      simp only [Option.some_inj] at hex
      subst hex
      have : ¬ inc.updated_at < r.updated_at := by omega
      simp [mergeRecord, hr2, this, replaceFirst]
    · have hr2 : (r.id == inc.id) = false := by simp [hr]
      simp only [findRec, List.find?_cons, hr2] at hex
      have := ih hex
      simp [mergeRecord, hr2, replaceFirst, this]

theorem mergeRecordSilent_tie (t : Nat) (inc : Record)
    (store : List Record) (ex : Record)
    (hex : findRec store inc.id = some ex) (htie : ex.updated_at = inc.updated_at) :
    mergeRecordSilent t inc store = replaceFirst store inc.id (stamp inc t) := by
  induction store with
  | nil => simp [findRec] at hex
  | cons r rest ih =>
    by_cases hr : r.id = inc.id
    · have hr2 : (r.id == inc.id) = true := by simp [hr]
      simp only [findRec, List.find?_cons, hr2] at hex
      simp only [Option.some_inj] at hex
      subst hex
      have : r.updated_at ≤ inc.updated_at := by omega
      simp [mergeRecordSilent, hr2, this, replaceFirst]
    · have hr2 : (r.id == inc.id) = false := by simp [hr]
      simp only [findRec, List.find?_cons, hr2] at hex
      simp [mergeRecordSilent, hr2, replaceFirst, ih hex]

/-- C8.  When a pushed record's `updated_at` equals the existing server
record's: the incoming value is accepted, stored stamped with
`updated_at = serverTime`, and no conflict entry is produced — for the
conflict-reporting kinds (`mergeRecord`), the silent kinds
(`mergeRecordSilent`), and the settings singleton of `bulkSync`. -/
theorem push_tie_break (kind : String) (t : Nat) (inc : Record)
    (store : List Record) (ex : Record) (srv : ServerDB) :
    (findRec store inc.id = some ex → ex.updated_at = inc.updated_at →
      mergeRecord kind t inc store = (replaceFirst store inc.id (stamp inc t), none))
    ∧ (findRec store inc.id = some ex → ex.updated_at = inc.updated_at →
      mergeRecordSilent t inc store = replaceFirst store inc.id (stamp inc t))
    ∧ (srv.settings = some ex → ex.updated_at = inc.updated_at →
      bulkSync srv ⟨some [inc], none, none, none, none⟩ t
        = ({ srv with settings := some (stamp inc t) }, [])) := by
  refine ⟨mergeRecord_tie kind t inc store ex, mergeRecordSilent_tie t inc store ex, ?_⟩
  intro hs htie
  have : ¬ inc.updated_at < ex.updated_at := by omega
  simp [bulkSync, hs, this, mergeKind, mergeKindSilent]

/-- Witness for `push_tie_break`: a tied category push overwrites with the
server stamp and reports no conflict. -/
theorem push_tie_break_witness :
    mergeRecord "category" 300 ⟨"c1", 100, false, 7⟩ [⟨"c1", 100, false, 3⟩]
      = (replaceFirst [⟨"c1", 100, false, 3⟩] "c1" (stamp ⟨"c1", 100, false, 7⟩ 300), none) :=
  (push_tie_break "category" 300 ⟨"c1", 100, false, 7⟩ [⟨"c1", 100, false, 3⟩]
    ⟨"c1", 100, false, 3⟩ ⟨none, [], [], [], []⟩).1 rfl rfl

/-! ## C1 — server push-side merge on stale records -/

theorem mergeRecord_stale (kind : String) (t : Nat) (inc : Record)
    (store : List Record) (ex : Record)
    (hex : findRec store inc.id = some ex) (hst : inc.updated_at < ex.updated_at) :
    mergeRecord kind t inc store
      = (store, some ⟨kind, inc.id, "server_newer", inc.updated_at, ex.updated_at⟩) := by
  induction store with
  | nil => simp [findRec] at hex
  | cons r rest ih =>
    by_cases hr : r.id = inc.id
    · have hr2 : (r.id == inc.id) = true := by simp [hr]
      simp only [findRec, List.find?_cons, hr2] at hex
      simp only [Option.some_inj] at hex
      subst hex
      simp [mergeRecord, hr2, hst]
    · have hr2 : (r.id == inc.id) = false := by simp [hr]
      simp only [findRec, List.find?_cons, hr2] at hex
      simp [mergeRecord, hr2, ih hex]

theorem mergeRecordSilent_stale (t : Nat) (inc : Record)
    (store : List Record) (ex : Record)
    (hex : findRec store inc.id = some ex) (hst : inc.updated_at < ex.updated_at) :
    mergeRecordSilent t inc store = store := by
  induction store with
  | nil => simp [findRec] at hex
  | cons r rest ih =>
    by_cases hr : r.id = inc.id
    · have hr2 : (r.id == inc.id) = true := by simp [hr]
      simp only [findRec, List.find?_cons, hr2] at hex
      simp only [Option.some_inj] at hex
      subst hex
      have : ¬ r.updated_at ≤ inc.updated_at := by omega
      simp [mergeRecordSilent, hr2, this]
    · have hr2 : (r.id == inc.id) = false := by simp [hr]
      simp only [findRec, List.find?_cons, hr2] at hex
      simp [mergeRecordSilent, hr2, ih hex]

/-- Counterexample to C1 as stated: a pushed budget that is strictly
staler than the server's copy is rejected and the server record is kept —
but the conflicts list of `bulkSync` is empty: no
`{type, id, reason: server_newer, ...}` entry is recorded for budgets
(the same holds for goals), contradicting `this holds for every entity
kind`. -/
theorem bulkSync_budget_conflict_counterexample :
    bulkSync ⟨none, [], [], [⟨"b1", 200, false, 0⟩], []⟩
        ⟨none, none, none, some [⟨"b1", 150, false, 1⟩], none⟩ 300
      = (⟨none, [], [], [⟨"b1", 200, false, 0⟩], []⟩, []) := by
  decide

/-- C1 (amended).  For every pushed record whose existing server copy is
strictly newer, `bulkSync` keeps the existing record unchanged and
rejects the incoming value for every entity kind; a conflict entry
`{type, id, reason: server_newer, clientTime, serverTime}` is recorded
for settings, categories and transactions, while stale budgets and goals
are rejected silently: the conflicts list never receives entries from the
budgets/goals loops, so it is unchanged when those kinds are dropped from
the push. -/
theorem bulkSync_stale_push (kind : String) (t : Nat) (inc : Record)
    (store : List Record) (ex : Record) (srv : ServerDB) (push : PushPayload) :
    (findRec store inc.id = some ex → inc.updated_at < ex.updated_at →
      mergeRecord kind t inc store
        = (store, some ⟨kind, inc.id, "server_newer", inc.updated_at, ex.updated_at⟩))
    ∧ (findRec store inc.id = some ex → inc.updated_at < ex.updated_at →
      mergeRecordSilent t inc store = store)
    ∧ (srv.settings = some ex → inc.updated_at < ex.updated_at →
      bulkSync srv ⟨some [inc], none, none, none, none⟩ t
        = (srv, [⟨"settings", inc.id, "server_newer", inc.updated_at, ex.updated_at⟩]))
    ∧ (bulkSync srv push t).2
        = (bulkSync srv { push with budgets := none, goals := none } t).2 := by
  refine ⟨mergeRecord_stale kind t inc store ex, mergeRecordSilent_stale t inc store ex,
    ?_, rfl⟩
  intro hs hst
  cases srv with
  | mk s cs ts bs gs =>
    simp only at hs
    subst hs
    simp [bulkSync, hst, mergeKind, mergeKindSilent]

/-- Witness for `bulkSync_stale_push`: a stale transaction push is kept
out of the store and reported. -/
theorem bulkSync_stale_push_witness :
    mergeRecord "transaction" 300 ⟨"t1", 150, false, 1⟩ [⟨"t1", 200, false, 0⟩]
      = ([⟨"t1", 200, false, 0⟩],
          some ⟨"transaction", "t1", "server_newer", 150, 200⟩) :=
  (bulkSync_stale_push "transaction" 300 ⟨"t1", 150, false, 1⟩ [⟨"t1", 200, false, 0⟩]
    ⟨"t1", 200, false, 0⟩ ⟨none, [], [], [], []⟩ emptyPush).1 rfl (by decide)

/-! ## C4 — atomic mutation + enqueue -/

theorem table_setTable_same (db : ClientDB) (k : EntityKind) (l : List Record) :
    (db.setTable k l).table k = l := by
  cases k <;> rfl

theorem outbox_setTable (db : ClientDB) (k : EntityKind) (l : List Record) :
    (db.setTable k l).outbox = db.outbox := by
  cases k <;> rfl

theorem table_outbox_update (db : ClientDB) (k : EntityKind) (l : List OutboxItem) :
    ClientDB.table { db with outbox := l } k = db.table k := by
  cases k <;> rfl

/-- C4.  Each of the three mutation operations is a single state
transition (one Dexie `rw` transaction over the entity table and the
outbox): a create appends the record and exactly one `create` outbox
entry; an update/soft-delete of an existing record rewrites exactly that
record and appends exactly one `update`/`delete` outbox entry carrying
the new payload; and when the target record does not exist the state is
returned completely unchanged with no outbox entry — in every case the
entity-table write happens exactly when the outbox write does. -/
theorem mutation_outbox_atomic (db : ClientDB) (k : EntityKind) (oid : String)
    (tNow : Nat) (item : Record) (i : String) (upd : Record → Record) :
    ((createWithOutbox db k oid tNow item).outbox
        = db.outbox ++ [⟨oid, k, "create", item, tNow, false, 0⟩]
      ∧ (createWithOutbox db k oid tNow item).table k = db.table k ++ [item])
    ∧ (findRec (db.table k) i = none → updateWithOutbox db k oid tNow i upd = (db, none))
    ∧ (∀ ex, findRec (db.table k) i = some ex →
        (updateWithOutbox db k oid tNow i upd).1.outbox
            = db.outbox ++ [⟨oid, k, "update", { upd ex with updated_at := tNow }, tNow, false, 0⟩]
        ∧ (updateWithOutbox db k oid tNow i upd).1.table k
            = replaceFirst (db.table k) i { upd ex with updated_at := tNow }
        ∧ (updateWithOutbox db k oid tNow i upd).2 = some { upd ex with updated_at := tNow })
    ∧ (findRec (db.table k) i = none → deleteWithOutbox db k oid tNow i = (db, false))
    ∧ (∀ ex, findRec (db.table k) i = some ex →
        (deleteWithOutbox db k oid tNow i).1.outbox
            = db.outbox ++ [⟨oid, k, "delete", { ex with deleted := true, updated_at := tNow }, tNow, false, 0⟩]
        ∧ (deleteWithOutbox db k oid tNow i).1.table k
            = replaceFirst (db.table k) i { ex with deleted := true, updated_at := tNow }
        ∧ (deleteWithOutbox db k oid tNow i).2 = true) := by
  refine ⟨⟨?_, ?_⟩, ?_, ?_, ?_, ?_⟩
  · simp [createWithOutbox, outbox_setTable]
  · simp [createWithOutbox, table_outbox_update, table_setTable_same]
  · intro h
    simp [updateWithOutbox, h]
  · intro ex hex
    refine ⟨?_, ?_, ?_⟩ <;>
      simp [updateWithOutbox, hex, outbox_setTable, table_outbox_update, table_setTable_same]
  · intro h
    simp [deleteWithOutbox, h]
  · intro ex hex
    refine ⟨?_, ?_, ?_⟩ <;>
      simp [deleteWithOutbox, hex, outbox_setTable, table_outbox_update, table_setTable_same]

/-- Witness for `mutation_outbox_atomic`: a soft delete of an existing
category rewrites the record and appends exactly one outbox entry. -/
theorem mutation_outbox_atomic_witness :
    (deleteWithOutbox ⟨[], [⟨"c1", 10, false, 0⟩], [], [], [], [], "cl", 0, 0⟩
        .categories "o1" 42 "c1").1.outbox
      = [⟨"o1", .categories, "delete", ⟨"c1", 42, true, 0⟩, 42, false, 0⟩] :=
  ((mutation_outbox_atomic ⟨[], [⟨"c1", 10, false, 0⟩], [], [], [], [], "cl", 0, 0⟩
      .categories "o1" 42 ⟨"x", 0, false, 0⟩ "c1" id).2.2.2.2
    ⟨"c1", 10, false, 0⟩ rfl).1

/-! ## C9 — re-entrancy guard -/

/-- C9.  A call while a round is in progress returns immediately with
`success = false` and `Sync already in progress`, leaving the client
store byte-for-byte unchanged and scheduling nothing (the guard returns
before the queue is read or the server contacted); and any round that
actually runs — success or failure, whatever the environment — ends with
the engine back in the not-syncing state, so a second round never starts
while one is running. -/
theorem sync_reentrancy (db : ClientDB) (online force : Bool) (m : Nat) (env : SyncEnv) :
    sync true db online force m env
      = ⟨true, db, ⟨false, some "Sync already in progress", 0, 0, 0⟩, none⟩
    ∧ (sync false db online force m env).isSyncing = false := by
  constructor
  · rfl
  · by_cases h : online = false <;> simp [sync, h]

/-! ## Retry-count bookkeeping lemmas -/

theorem foldl_incrementRetryCount (S : List OutboxItem) (db : ClientDB) :
    S.foldl (fun d it => incrementRetryCount d it.id) db
      = { db with outbox := db.outbox.map (fun it =>
          { it with retryCount := it.retryCount + (S.map (fun s => s.id)).count it.id }) } := by
  induction S generalizing db with
  | nil =>
    have : (fun (it : OutboxItem) => { it with
        retryCount := it.retryCount + (([] : List OutboxItem).map (fun s => s.id)).count it.id })
        = fun it => it := by
      funext it
      simp
    simp [this]
  | cons x S ih =>
    have step : List.foldl (fun d it => incrementRetryCount d it.id) db (x :: S)
        = S.foldl (fun d it => incrementRetryCount d it.id) (incrementRetryCount db x.id) := rfl
    rw [step, ih]
    simp only [incrementRetryCount, List.map_map]
    congr 1
    apply List.map_congr_left
    intro it _
    by_cases h : it.id = x.id
    · have hb : (it.id == x.id) = true := by simp [h]
      simp only [Function.comp, hb, if_pos]
      have hc : ((x :: S).map (fun s => s.id)).count it.id
          = (S.map (fun s => s.id)).count it.id + 1 := by
        simp only [List.map_cons]
        rw [h]
        exact List.count_cons_self x.id (S.map (fun s => s.id))
      simp only [hc, OutboxItem.mk.injEq, true_and]
      omega
    · have hb : (it.id == x.id) = false := by simp [h]
      simp only [Function.comp, hb, if_neg, Bool.false_eq_true, if_false]
      have hc : ((x :: S).map (fun s => s.id)).count it.id
          = (S.map (fun s => s.id)).count it.id := by
        simp only [List.map_cons]
        exact List.count_cons_of_ne h (S.map (fun s => s.id))
      rw [hc]

@[simp]
theorem outbox_applyServerChanges (db : ClientDB) (pull : PullPayload) (fuel : Nat) :
    (applyServerChanges db pull fuel).outbox = db.outbox := rfl

@[simp]
theorem lastSync_applyServerChanges (db : ClientDB) (pull : PullPayload) (fuel : Nat) :
    (applyServerChanges db pull fuel).lastSync = db.lastSync := rfl

@[simp]
theorem lastFullSync_applyServerChanges (db : ClientDB) (pull : PullPayload) (fuel : Nat) :
    (applyServerChanges db pull fuel).lastFullSync = db.lastFullSync := rfl

@[simp]
theorem lastSync_markAsSynced (db : ClientDB) (ids : List String) :
    (markAsSynced db ids).lastSync = db.lastSync := rfl

@[simp]
theorem lastFullSync_markAsSynced (db : ClientDB) (ids : List String) :
    (markAsSynced db ids).lastFullSync = db.lastFullSync := rfl

@[simp]
theorem lastSync_incrementFailed (db : ClientDB) (m : Nat) :
    (incrementFailed db m).lastSync = db.lastSync := by
  unfold incrementFailed
  rw [foldl_incrementRetryCount]

@[simp]
theorem lastFullSync_incrementFailed (db : ClientDB) (m : Nat) :
    (incrementFailed db m).lastFullSync = db.lastFullSync := by
  unfold incrementFailed
  rw [foldl_incrementRetryCount]

@[simp]
theorem ids_markAsSynced (db : ClientDB) (ids : List String) :
    (markAsSynced db ids).outbox.map (fun it => it.id)
      = db.outbox.map (fun it => it.id) := by
  simp [markAsSynced, List.map_map, Function.comp, apply_ite]

@[simp]
theorem ids_incrementFailed (db : ClientDB) (m : Nat) :
    (incrementFailed db m).outbox.map (fun it => it.id)
      = db.outbox.map (fun it => it.id) := by
  unfold incrementFailed
  rw [foldl_incrementRetryCount]
  simp [List.map_map, Function.comp]


/-! ## C6 — unsynced-entry selection -/

/-- C6 (code bug).  The selection the spec describes for a push round —
`synced = false` and `retryCount < maxRetries`, in creation order
(`listUnsyncedSpec`) — is what the outbox pattern requires; but the
implementation's query `where('synced').equals(0)` consults an IndexedDB
index that contains no rows (`synced` is stored as a JS boolean, which
is not a valid index key), and compares against the number `0` besides,
so the program's selection (`getUnsyncedItems`, and with it
`itemsToSync`) is the empty list for every store: a pending entry is
never selected for any round.  Evaluated at the failing input — one
freshly enqueued entry, `maxRetries = 3` — the spec's selection holds
the entry while the code's returns nothing. -/
theorem getUnsyncedItems_always_empty :
    (∀ (db : ClientDB) (m : Nat), getUnsyncedItems db = [] ∧ itemsToSync db m = [])
    ∧ getUnsyncedItems ⟨[], [], [], [], [],
        [⟨"o1", .categories, "create", ⟨"c1", 10, false, 0⟩, 10, false, 0⟩],
        "cl", 50, 40⟩ = []
    ∧ listUnsyncedSpec ⟨[], [], [], [], [],
        [⟨"o1", .categories, "create", ⟨"c1", 10, false, 0⟩, 10, false, 0⟩],
        "cl", 50, 40⟩ 3
      = [⟨"o1", .categories, "create", ⟨"c1", 10, false, 0⟩, 10, false, 0⟩] := by
  refine ⟨fun db m => ⟨rfl, rfl⟩, rfl, by decide⟩

/-! ## C10 — apply failure after the push phase -/

/-- C10 (code bug).  `SyncEngine.sync` is written to mark the pushed
entries synced before applying the pull and before advancing the cursor,
and the claim describes an apply-failure leaving those entries marked
synced with the cursor unmoved; but the unsynced query selects nothing
(C6), so no round ever pushes an entry and `markAsSynced` — guarded by
`itemsToSync.length > 0` — never runs.  Evaluated at the failing input
(a store holding one pending entry, a forced round whose server response
arrives and whose apply then throws immediately): the round reports
failure with `Unknown sync error`, schedules nothing, the cursor keeps
its previous value — and the pending entry is still `synced = false`,
never the `synced = true` the claim asserts of a pushed entry. -/
theorem apply_failure_never_marks :
    itemsToSync ⟨[], [], [], [], [],
        [⟨"o1", .categories, "create", ⟨"c1", 10, false, 0⟩, 10, false, 0⟩],
        "cl", 50, 40⟩ 3 = []
    ∧ (sync false ⟨[], [], [], [], [],
        [⟨"o1", .categories, "create", ⟨"c1", 10, false, 0⟩, 10, false, 0⟩],
        "cl", 50, 40⟩ true true 3 (.applyThrow 100 emptyPull 0 "boom")).result
      = ⟨false, some "Unknown sync error", 0, 0, 0⟩
    ∧ (sync false ⟨[], [], [], [], [],
        [⟨"o1", .categories, "create", ⟨"c1", 10, false, 0⟩, 10, false, 0⟩],
        "cl", 50, 40⟩ true true 3 (.applyThrow 100 emptyPull 0 "boom")).client.lastSync = 50
    ∧ (sync false ⟨[], [], [], [], [],
        [⟨"o1", .categories, "create", ⟨"c1", 10, false, 0⟩, 10, false, 0⟩],
        "cl", 50, 40⟩ true true 3 (.applyThrow 100 emptyPull 0 "boom")).retrySched = none
    ∧ (sync false ⟨[], [], [], [], [],
        [⟨"o1", .categories, "create", ⟨"c1", 10, false, 0⟩, 10, false, 0⟩],
        "cl", 50, 40⟩ true true 3 (.applyThrow 100 emptyPull 0 "boom")).client.outbox.map
          (fun it => it.synced) = [false] := by
  refine ⟨rfl, by decide, by decide, by decide, by decide⟩

/-! ## C5 — failed round: retry counts, backoff, cursor -/

/-- Counterexample to C5 as stated, traced through the code.  The
unsynced query selects nothing (C6), so a non-forced failed round takes
the `pullFromServer` path, whose own catch schedules no retry at all —
contradicting `a retry is scheduled after exponential backoff` — and a
forced round (the only way to reach the push path and its catch branch)
failing with an `ApiError` at `maxRetries = 5` (the `forcSync`
parameters) schedules `min(30000, 1000 * 2^(maxRetries-1)) = 16000` ms,
while the claimed `min(30s, 1s * 2^attempt)` for this first failed
attempt is `2000` ms (`attempt = 1` failed attempt so far; `1000` ms if
`attempt` counts the failures before this one).  No retry count is
incremented in either case. -/
theorem sync_backoff_counterexample :
    (sync false ⟨[], [], [], [], [],
        [⟨"o1", .categories, "create", ⟨"c1", 10, false, 0⟩, 10, false, 0⟩],
        "cl", 50, 40⟩ true false 3 (.apiError "Network error")).retrySched = none
    ∧ (sync false ⟨[], [], [], [], [],
        [⟨"o1", .categories, "create", ⟨"c1", 10, false, 0⟩, 10, false, 0⟩],
        "cl", 50, 40⟩ true true 5 (.apiError "Network error")).retrySched
      = some (16000, 4)
    ∧ (sync false ⟨[], [], [], [], [],
        [⟨"o1", .categories, "create", ⟨"c1", 10, false, 0⟩, 10, false, 0⟩],
        "cl", 50, 40⟩ true true 5 (.apiError "Network error")).client.outbox.map
          (fun it => it.retryCount) = [0]
    ∧ min 30000 (1000 * 2 ^ 1) = 2000
    ∧ min 30000 (1000 * 2 ^ 0) = 1000 := by
  refine ⟨by decide, by decide, by decide, by decide, by decide⟩

/-- C5 (amended).  On any failed sync round the cursor is not advanced.
Because the unsynced query selects nothing, no entry is ever attempted
and no retry count is ever incremented: a non-forced round failing with
the `ApiError` the network client throws takes the pull-only path and
returns the failure with the client store byte-for-byte unchanged and no
retry scheduled; a forced round failing with an `ApiError` likewise
leaves the store unchanged and schedules a retry per `retrySchedule` —
after `min(30000, 1000 * 2^(maxRetries-1))` ms with the next round's
budget `maxRetries - 1`, a delay whose exponent is the remaining budget
(shrinking on successive retries), not the number of failed attempts. -/
theorem sync_failure_retry (db : ClientDB) (m : Nat) (msg : String) :
    sync false db true false m (.apiError msg)
      = ⟨false, db, ⟨false, some msg, 0, 0, 0⟩, none⟩
    ∧ (sync false db true true m (.apiError msg)).client = db
    ∧ (sync false db true true m (.apiError msg)).result = ⟨false, some msg, 0, 0, 0⟩
    ∧ (sync false db true true m (.apiError msg)).retrySched = retrySchedule m := by
  refine ⟨rfl, rfl, rfl, rfl⟩

/-! ## C7 — cursor monotonicity -/

theorem syncBody_ok_lastSync (db : ClientDB) (force : Bool) (m t : Nat) (pull : PullPayload) :
    (syncBody db force m (.ok t pull)).1.lastSync = t := by
  simp only [syncBody]
  split <;> simp

theorem syncBody_ok_success (db : ClientDB) (force : Bool) (m t : Nat) (pull : PullPayload) :
    (syncBody db force m (.ok t pull)).2.1.success = true := by
  simp only [syncBody]
  split <;> simp

theorem syncBody_apiError_lastSync (db : ClientDB) (force : Bool) (m : Nat) (msg : String) :
    (syncBody db force m (.apiError msg)).1.lastSync = db.lastSync := by
  simp only [syncBody]
  split <;> simp

theorem syncBody_apiError_success (db : ClientDB) (force : Bool) (m : Nat) (msg : String) :
    (syncBody db force m (.apiError msg)).2.1.success = false := by
  simp only [syncBody]
  split <;> simp

theorem syncBody_applyThrow_lastSync (db : ClientDB) (force : Bool) (m t fuel : Nat)
    (pull : PullPayload) (msg : String) :
    (syncBody db force m (.applyThrow t pull fuel msg)).1.lastSync = db.lastSync := by
  simp only [syncBody]
  split
  · simp
  · split <;> simp

theorem syncBody_applyThrow_success (db : ClientDB) (force : Bool) (m t fuel : Nat)
    (pull : PullPayload) (msg : String) :
    (syncBody db force m (.applyThrow t pull fuel msg)).2.1.success = false := by
  simp only [syncBody]
  split
  · simp
  · split <;> simp

theorem sync_not_guarded (db : ClientDB) (force : Bool) (m : Nat) (env : SyncEnv) :
    sync false db true force m env
      = ⟨false, (syncBody db force m env).1,
          (syncBody db force m env).2.1, (syncBody db force m env).2.2⟩ := rfl

theorem stepWorld_invariant (w : World) (r : RoundInput)
    (h : w.client.lastSync ≤ w.clock) :
    (stepWorld w r).1.client.lastSync ≤ (stepWorld w r).1.clock
    ∧ w.client.lastSync ≤ (stepWorld w r).1.client.lastSync := by
  by_cases hon : r.online = false
  · simp only [stepWorld, hon, if_pos]
    exact ⟨h, le_refl _⟩
  · have hon2 : (r.online = false) = False := by simp [hon]
    cases hf : r.fate with
    | transportFail =>
      simp only [stepWorld, hon2, if_false, hf, sync_not_guarded]
      rw [syncBody_apiError_lastSync]
      exact ⟨h, le_refl _⟩
    | applyFail fuel msg =>
      simp only [stepWorld, hon2, if_false, hf, sync_not_guarded]
      rw [syncBody_applyThrow_lastSync]
      refine ⟨?_, le_refl _⟩
      simp only [roundServerTime]
      omega
    | success =>
      simp only [stepWorld, hon2, if_false, hf, sync_not_guarded]
      rw [syncBody_ok_lastSync]
      refine ⟨le_refl _, ?_⟩
      simp only [roundServerTime]
      omega

/-- C7.  Per round: a successful round sets the cursor to the
`server_time` the server answered with (`roundServerTime`, the server's
clock reading for that round), and every unsuccessful round — guard,
offline, transport failure, or apply failure — leaves `lastSync`
unchanged.  Across any sequence of rounds started from a state where the
cursor does not exceed the server clock (as at initialization,
`lastSync = 0`), the cursor never decreases. -/
theorem cursor_monotonicity :
    (∀ (w : World) (r : RoundInput),
      ((stepWorld w r).2.success = true →
        (stepWorld w r).1.client.lastSync = roundServerTime w r)
      ∧ ((stepWorld w r).2.success = false →
        (stepWorld w r).1.client.lastSync = w.client.lastSync))
    ∧ (∀ (w : World) (rs : List RoundInput), w.client.lastSync ≤ w.clock →
        w.client.lastSync ≤ (runRounds w rs).client.lastSync) := by
  constructor
  · intro w r
    by_cases hon : r.online = false
    · constructor
      · intro hs
        simp [stepWorld, hon] at hs
      · intro _
        simp [stepWorld, hon]
    · have hon2 : (r.online = false) = False := by simp [hon]
      cases hf : r.fate with
      | transportFail =>
        constructor
        · intro hs
          simp only [stepWorld, hon2, if_false, hf, sync_not_guarded] at hs
          rw [syncBody_apiError_success] at hs
          exact absurd hs (by simp)
        · intro _
          simp only [stepWorld, hon2, if_false, hf, sync_not_guarded]
          rw [syncBody_apiError_lastSync]
      | applyFail fuel msg =>
        constructor
        · intro hs
          simp only [stepWorld, hon2, if_false, hf, sync_not_guarded] at hs
          rw [syncBody_applyThrow_success] at hs
          exact absurd hs (by simp)
        · intro _
          simp only [stepWorld, hon2, if_false, hf, sync_not_guarded]
          rw [syncBody_applyThrow_lastSync]
      | success =>
        constructor
        · intro _
          simp only [stepWorld, hon2, if_false, hf, sync_not_guarded]
          rw [syncBody_ok_lastSync]
        · intro hs
          simp only [stepWorld, hon2, if_false, hf, sync_not_guarded] at hs
          rw [syncBody_ok_success] at hs
          exact absurd hs (by simp)
  · intro w rs
    induction rs generalizing w with
    | nil =>
      intro _
      exact le_refl _
    | cons r rs ih =>
      intro h
      have hinv := stepWorld_invariant w r h
      exact le_trans hinv.2 (ih (stepWorld w r).1 hinv.1)

/-- Witness for `cursor_monotonicity`: two rounds (one success, one
transport failure) from a freshly-initialized client never lower the
cursor. -/
theorem cursor_monotonicity_witness :
    (⟨⟨none, [], [], [], []⟩, 100, ⟨[], [], [], [], [], [], "cl", 0, 0⟩⟩ : World).client.lastSync
      ≤ (runRounds ⟨⟨none, [], [], [], []⟩, 100, ⟨[], [], [], [], [], [], "cl", 0, 0⟩⟩
          [⟨true, false, 3, 5, .success⟩, ⟨true, false, 3, 2, .transportFail⟩]).client.lastSync :=
  cursor_monotonicity.2 ⟨⟨none, [], [], [], []⟩, 100, ⟨[], [], [], [], [], [], "cl", 0, 0⟩⟩
    [⟨true, false, 3, 5, .success⟩, ⟨true, false, 3, 2, .transportFail⟩] (by decide)
